import Mathlib

/-!
# Shallow embedding of the Tallie restaurant-reservation API

This file embeds the reservation/availability logic of the repository
(`controller/reservationController.js`, `controller/restaurantController.js`,
`model/schema.js`, `db/db.js`) into Lean 4 and proves the frozen claims
about it.

Modelling conventions:
* Absolute timestamps are integers counting minutes since the Unix epoch
  (the code exchanges ISO-8601 strings and compares them through
  `new Date(...)` / SQLite `datetime(...)`, both of which order strings
  exactly as the instants they denote; the runtime timezone is UTC, so
  `getHours`/`getMinutes` read the UTC wall clock).
* The SQLite database is a record of three lists (`restaurants`, `tables`,
  `reservations`) plus the AUTOINCREMENT counters.  `dbGet` becomes
  `List.find?`, `dbAll` with a WHERE clause becomes `List.filter`,
  `ORDER BY` becomes an insertion sort, an INSERT appends to the list.
* The wall clock used for `new Date().toISOString()` (response bodies) and
  for SQLite's `DEFAULT (datetime('now'))` (stored rows) is passed in
  explicitly as a `Clock` value of broken-down civil time.
* HTTP request parsing is elided: route/query parameters arrive already
  extracted, and each controller returns an explicit result value in place
  of `res.status(...).json(...)`.
-/

/-! ## JavaScript string primitives

JS `<` / `>=` on strings compare UTF-16 code units lexicographically; for
the ASCII strings handled here this is lexicographic comparison of the
character lists.  `a >= b` is `!(a < b)` and `a <= b` is `!(b < a)`. -/

def jsCharListLt : List Char → List Char → Bool
  | [], [] => false
  | [], _ :: _ => true
  | _ :: _, [] => false
  | a :: as, b :: bs =>
    if a < b then true
    else if b < a then false
    else jsCharListLt as bs

def jsStrLt (a b : String) : Bool := jsCharListLt a.data b.data

def jsStrGe (a b : String) : Bool := ! jsStrLt a b

def jsStrLe (a b : String) : Bool := ! jsStrLt b a

/-- JS `Number.prototype.toString` for a natural number followed by
`padStart(2, '0')`, as used for hour/minute components. -/
def pad2 (n : Nat) : String :=
  if n < 10 then "0" ++ toString n else toString n

def pad3 (n : Nat) : String :=
  if n < 10 then "00" ++ toString n
  else if n < 100 then "0" ++ toString n
  else toString n

def pad4 (n : Nat) : String :=
  if n < 10 then "000" ++ toString n
  else if n < 100 then "00" ++ toString n
  else if n < 1000 then "0" ++ toString n
  else toString n

/-- JS `parseInt(s, 10)`: skip leading whitespace, read an optional sign and
then the longest prefix of decimal digits; `none` models `NaN` (no digits). -/
def parseIntJs (s : String) : Option Int :=
  let cs := s.data.dropWhile Char.isWhitespace
  let signAndRest : Int × List Char :=
    match cs with
    | '-' :: r => (-1, r)
    | '+' :: r => (1, r)
    | r => (1, r)
  let digits := signAndRest.2.takeWhile Char.isDigit
  if digits.isEmpty then none
  else some (signAndRest.1 *
    (digits.foldl (fun n c => n * 10 + (c.toNat - 48)) 0 : Nat))

/-- JS `Number(s)` restricted to the unsigned-decimal strings fed to it here
(the components of `"HH:MM".split(':')`): `Number("") = 0`, a string of
digits denotes its value, anything else is `NaN` (modelled as `none`). -/
def jsNumber (s : String) : Option Nat :=
  if s.data.isEmpty then some 0
  else if s.data.all Char.isDigit then
    some (s.data.foldl (fun n c => n * 10 + (c.toNat - 48)) 0)
  else none

/-! ## Wall-clock extraction

`new Date(t).getHours()` / `.getMinutes()` on a UTC runtime: hour and
minute of the civil day containing instant `t` (minutes since epoch). -/

def getHoursJs (t : Int) : Nat := ((t / 60) % 24).toNat

def getMinutesJs (t : Int) : Nat := (t % 60).toNat

/-- Lines 23-29 of `reservationController.js`: zero-padded `"HH:MM"` string
of an instant's wall-clock time of day. -/
def hhmmOf (t : Int) : String := pad2 (getHoursJs t) ++ ":" ++ pad2 (getMinutesJs t)

/-! ## Server clock and timestamp formats -/

/-- Broken-down civil time of the server clock at some instant. -/
structure Clock where
  year : Nat
  month : Nat
  day : Nat
  hour : Nat
  minute : Nat
  second : Nat
  millis : Nat
deriving DecidableEq, Repr

/-- Format of `new Date().toISOString()`: `"YYYY-MM-DDTHH:MM:SS.mmmZ"`. -/
def isoNow (c : Clock) : String :=
  pad4 c.year ++ "-" ++ pad2 c.month ++ "-" ++ pad2 c.day ++ "T" ++
    pad2 c.hour ++ ":" ++ pad2 c.minute ++ ":" ++ pad2 c.second ++ "." ++
    pad3 c.millis ++ "Z"

/-- SQLite `datetime('now')`, the schema default for `created_at` columns:
`"YYYY-MM-DD HH:MM:SS"`. -/
def sqliteNow (c : Clock) : String :=
  pad4 c.year ++ "-" ++ pad2 c.month ++ "-" ++ pad2 c.day ++ " " ++
    pad2 c.hour ++ ":" ++ pad2 c.minute ++ ":" ++ pad2 c.second

/-! ## Data model (`model/schema.js`) -/

structure Restaurant where
  id : Int
  name : String
  opening_time : String
  closing_time : String
  created_at : String
deriving DecidableEq, Repr

structure RTable where
  id : Int
  restaurant_id : Int
  table_number : Int
  capacity : Int
deriving DecidableEq, Repr

structure Reservation where
  id : Int
  restaurant_id : Int
  table_id : Int
  customer_name : String
  phone : String
  party_size : Int
  start_time : Int
  duration_minutes : Int
  status : String
  created_at : String
deriving DecidableEq, Repr

/-- The SQLite database plus AUTOINCREMENT counters. -/
structure AppState where
  restaurants : List Restaurant
  tables : List RTable
  reservations : List Reservation
  nextRestaurantId : Int
  nextTableId : Int
  nextReservationId : Int
deriving DecidableEq, Repr

/-- Freshly initialized database (`db.exec(schema)`). -/
def initialState : AppState :=
  { restaurants := [], tables := [], reservations := [],
    nextRestaurantId := 1, nextTableId := 1, nextReservationId := 1 }

/-! ## Overlap checker (`reservationController.js` lines 40-59) -/

/-- Row filter of the SQL in `checkForOverlaps`: same table, status
`'confirmed'` or `'pending'`, and
`(start < requestedEnd AND start + duration > requestedStart) OR
 start = requestedStart`. -/
def overlapRowMatches (table_id startT endT : Int) (r : Reservation) : Bool :=
  r.table_id == table_id &&
    (r.status == "confirmed" || r.status == "pending") &&
    ((r.start_time < endT && r.start_time + r.duration_minutes > startT) ||
      r.start_time == startT)

/-- Function `checkForOverlaps(table_id, start_time, duration_minutes)`: computes
`endDate = start + duration` and returns whether the overlap query found
any row. -/
def checkForOverlaps (resv : List Reservation) (table_id startT dur : Int) : Bool :=
  let endT := startT + dur
  let overlapping := resv.filter (overlapRowMatches table_id startT endT)
  overlapping.length > 0

/-! ## Operating-hours check (`reservationController.js` lines 18-36) -/

/-- Function `isWithinOperatingHours(restaurant, startTime, endTime)`: formats both
instants as zero-padded `"HH:MM"` and compares the strings against the
restaurant's `opening_time` / `closing_time` with JS `>=` / `<=`. -/
def isWithinOperatingHours (rst : Restaurant) (startT endT : Int) : Bool :=
  jsStrGe (hhmmOf startT) rst.opening_time && jsStrLe (hhmmOf endT) rst.closing_time

/-! ## Reservation creation (`reservationController.js` lines 6-14, 63-149) -/

/-- A reservation request body after JSON parsing; `start_time` is the
instant denoted by the request's ISO-8601 string. -/
structure CreateReq where
  restaurant_id : Int
  table_id : Int
  customer_name : String
  phone : String
  party_size : Int
  start_time : Int
  duration_minutes : Int
deriving DecidableEq, Repr

/-- Validation `createReservationSchema.parse`: positive integer ids, non-empty
customer name, phone of at least ten digits, positive party size, integer
duration of at least 15 minutes (the ISO-8601 shape of `start_time` is
absorbed by parsing it into an instant). -/
def validateReq (req : CreateReq) : Bool :=
  req.restaurant_id > 0 && req.table_id > 0 &&
    req.customer_name.length ≥ 1 &&
    (req.phone.length ≥ 10 && req.phone.data.all Char.isDigit) &&
    req.party_size > 0 &&
    (req.duration_minutes > 0 && req.duration_minutes ≥ 15)

/-- Outcome of `createReservation`, one constructor per `res.status`
branch; `created` carries the JSON response body (a `Reservation`-shaped
record assembled from `result.id`, the validated input, `'confirmed'`, and
`new Date().toISOString()`). -/
inductive CreateResult where
  | validationError
  | restaurantNotFound
  | tableNotFound
  | capacityExceeded (capacity party : Int)
  | outOfHours (opening closing : String)
  | conflict
  | created (response : Reservation)
deriving DecidableEq, Repr

/-- The row persisted by the INSERT of step 6: the validated fields with
`status` forced to `'confirmed'`, the AUTOINCREMENT id, and the schema
default `datetime('now')` for `created_at`. -/
def reservationRow (st : AppState) (req : CreateReq) (now : Clock) : Reservation :=
  { id := st.nextReservationId,
    restaurant_id := req.restaurant_id,
    table_id := req.table_id,
    customer_name := req.customer_name,
    phone := req.phone,
    party_size := req.party_size,
    start_time := req.start_time,
    duration_minutes := req.duration_minutes,
    status := "confirmed",
    created_at := sqliteNow now }

/-- The 201 response body (lines 137-142): `result.id`, the validated
fields, `'confirmed'`, and a fresh `new Date().toISOString()` — the
`created_at` is recomputed, not read back from the inserted row. -/
def reservationResponse (st : AppState) (req : CreateReq) (now : Clock) : Reservation :=
  { reservationRow st req now with created_at := isoNow now }

/-- Controller `createReservation(req, res)`.  Here `now` is the server clock at the
insert: the stored row's `created_at` is the SQLite default
`datetime('now')`, while the response body's `created_at` is
`new Date().toISOString()`. -/
def createReservation (st : AppState) (req : CreateReq) (now : Clock) :
    CreateResult × AppState :=
  if ! validateReq req then (.validationError, st)
  else
    match st.restaurants.find? (fun r => r.id == req.restaurant_id) with
    | none => (.restaurantNotFound, st)
    | some restaurant =>
      match st.tables.find?
          (fun t => t.id == req.table_id && t.restaurant_id == req.restaurant_id) with
      | none => (.tableNotFound, st)
      | some table =>
        if req.party_size > table.capacity then
          (.capacityExceeded table.capacity req.party_size, st)
        else
          if ! isWithinOperatingHours restaurant req.start_time
              (req.start_time + req.duration_minutes) then
            (.outOfHours restaurant.opening_time restaurant.closing_time, st)
          else if checkForOverlaps st.reservations req.table_id
              req.start_time req.duration_minutes then
            (.conflict, st)
          else
            (.created (reservationResponse st req now),
              { st with reservations := st.reservations ++ [reservationRow st req now],
                        nextReservationId := st.nextReservationId + 1 })

/-! ## Cancellation (`reservationController.js` lines 265-289) -/

inductive CancelResult where
  | notFound
  | cancelled (id : Int)
deriving DecidableEq, Repr

/-- The effect of `UPDATE reservations SET status = 'cancelled' WHERE id = ?`
on the stored rows. -/
def cancelUpdate (resv : List Reservation) (rid : Int) : List Reservation :=
  resv.map (fun r => if r.id == rid then { r with status := "cancelled" } else r)

/-- Controller `cancelReservation`: 404 when no row has the id, otherwise
`UPDATE reservations SET status = 'cancelled' WHERE id = ?`. -/
def cancelReservation (st : AppState) (rid : Int) : CancelResult × AppState :=
  match st.reservations.find? (fun r => r.id == rid) with
  | none => (.notFound, st)
  | some _ =>
    (.cancelled rid, { st with reservations := cancelUpdate st.reservations rid })

/-! ## Restaurant creation (`restaurantController.js` lines 6-10, 20-45) -/

/-- The zod regex `^\d{2}:\d{2}$` used for `opening_time`/`closing_time`:
exactly two decimal digits, a colon, two decimal digits. -/
def timeShapeOk (s : String) : Bool :=
  match s.data with
  | [a, b, c, d, e] => a.isDigit && b.isDigit && c == ':' && d.isDigit && e.isDigit
  | _ => false

inductive CreateRestaurantResult where
  | validationError
  | created (response : Restaurant)
deriving DecidableEq, Repr

/-- Controller `createRestaurant`: validate name and time shapes, insert, respond with
the id, the validated fields and a fresh ISO timestamp (the stored row's
`created_at` is the SQLite default). -/
def createRestaurant (st : AppState) (name opening closing : String) (now : Clock) :
    CreateRestaurantResult × AppState :=
  if name.length ≥ 1 && timeShapeOk opening && timeShapeOk closing then
    let row : Restaurant :=
      { id := st.nextRestaurantId, name := name, opening_time := opening,
        closing_time := closing, created_at := sqliteNow now }
    (.created { row with created_at := isoNow now },
      { st with restaurants := st.restaurants ++ [row],
                nextRestaurantId := st.nextRestaurantId + 1 })
  else (.validationError, st)

/-! ## Adding a table (`restaurantController.js` lines 13-17, 87-148) -/

/-- JSON body of `addTable`; `none` stands for an absent (or non-integer,
hence zod-rejected) field. -/
structure AddTableBody where
  restaurant_id : Option Int
  table_number : Option Int
  capacity : Option Int
deriving DecidableEq, Repr

inductive AddTableResult where
  | invalidUrlParam
  | validationError
  | restaurantNotFound
  | duplicateTable (table_number : Int)
  | created (id restaurant_id table_number capacity : Int)
deriving DecidableEq, Repr

/-- Lines 89-104: resolve `restaurant_id` from the URL parameter and the
body.  `param = some s` models `req.params.restaurant_id = s`; an absent
parameter or the empty string is falsy, so `paramRestaurantId` stays
`undefined`.  A parsed `NaN` yields the 400 (`Except.error`), and the merge
`{...body, ...(paramRestaurantId ? {restaurant_id: paramRestaurantId} : {})}`
lets the parameter override the body only when it is truthy (nonzero). -/
def addTableParamId (param : Option String) : Option (Option Int) :=
  match param with
  | some s => if s ≠ "" then some (parseIntJs s) else none
  | none => none

def addTableData (param : Option String) (body : AddTableBody) :
    Except Unit AddTableBody :=
  match addTableParamId param with
  | some none => .error ()
  | some (some n) =>
    if n ≠ 0 then .ok { body with restaurant_id := some n } else .ok body
  | none => .ok body

/-- Controller `addTable`: resolve the data (above), validate with `addTableSchema`
(three positive integers), check the restaurant exists, reject a duplicate
`(restaurant_id, table_number)` pair, then insert. -/
def addTable (st : AppState) (param : Option String) (body : AddTableBody) :
    AddTableResult × AppState :=
  match addTableData param body with
  | .error _ => (.invalidUrlParam, st)
  | .ok data =>
    match data.restaurant_id, data.table_number, data.capacity with
    | some rid, some tn, some cap =>
      if rid > 0 && tn > 0 && cap > 0 then
        match st.restaurants.find? (fun r => r.id == rid) with
        | none => (.restaurantNotFound, st)
        | some _ =>
          match st.tables.find?
              (fun t => t.restaurant_id == rid && t.table_number == tn) with
          | some _ => (.duplicateTable tn, st)
          | none =>
            (.created st.nextTableId rid tn cap,
              { st with
                  tables := st.tables ++
                    [{ id := st.nextTableId, restaurant_id := rid,
                       table_number := tn, capacity := cap }],
                  nextTableId := st.nextTableId + 1 })
      else (.validationError, st)
    | _, _, _ => (.validationError, st)

/-! ## Generic insertion sort (models SQL `ORDER BY`) -/

def insertLe {α : Type} (le : α → α → Bool) (x : α) : List α → List α
  | [] => [x]
  | y :: ys => if le x y then x :: y :: ys else y :: insertLe le x ys

def sortLe {α : Type} (le : α → α → Bool) : List α → List α
  | [] => []
  | x :: xs => insertLe le x (sortLe le xs)

/-! ## Calendar arithmetic (SQLite `DATE(...)`)

SQLite's `DATE` applied to a stored ISO-8601 timestamp yields the
`"YYYY-MM-DD"` of its UTC day.  `civilFromDays` is the standard proleptic
Gregorian conversion from a day count relative to 1970-01-01. -/

def civilFromDays (z0 : Int) : Int × Nat × Nat :=
  let z := z0 + 719468
  let era := z / 146097
  let doe := (z - era * 146097).toNat
  let yoe := (doe - doe / 1460 + doe / 36524 - doe / 146096) / 365
  let doy := doe - (365 * yoe + yoe / 4 - yoe / 100)
  let mp := (5 * doy + 2) / 153
  let d := doy - (153 * mp + 2) / 5 + 1
  let m := if mp < 10 then mp + 3 else mp - 9
  let y := (era * 400 + yoe : Int) + (if m ≤ 2 then 1 else 0)
  (y, m, d)

def formatYmd : Int × Nat × Nat → String
  | (y, m, d) => pad4 y.toNat ++ "-" ++ pad2 m ++ "-" ++ pad2 d

/-- SQLite `DATE(start_time)` of a stored timestamp (minutes since epoch). -/
def sqliteDateOf (t : Int) : String :=
  formatYmd (civilFromDays (t / 1440))

/-! ## Listing a day's reservations (`reservationController.js` lines 153-188) -/

/-- The regex `^\d{4}-\d{2}-\d{2}$` guarding the `:date` route parameter. -/
def isDateShape (s : String) : Bool :=
  match s.data with
  | [a, b, c, d, h1, e, f, h2, g, k] =>
    a.isDigit && b.isDigit && c.isDigit && d.isDigit && h1 == '-' &&
      e.isDigit && f.isDigit && h2 == '-' && g.isDigit && k.isDigit
  | _ => false

/-- A reservation row joined with its table's `table_number` and
`capacity`, as produced by the SQL JOIN. -/
structure ResvRow where
  reservation : Reservation
  table_number : Int
  capacity : Int
deriving DecidableEq, Repr

inductive ResByDateResult where
  | badDateFormat
  | restaurantNotFound
  | ok (rows : List ResvRow)
deriving DecidableEq, Repr

/-- Controller `getReservationsByDate`: regex-check the date, 404 an absent
restaurant, then return the reservations of that restaurant whose
`DATE(start_time)` equals the date, inner-joined with their table and
ordered by `start_time`. -/
def dayRows (st : AppState) (rid : Int) (date : String) : List ResvRow :=
  let matching := st.reservations.filter
    (fun r => r.restaurant_id == rid && sqliteDateOf r.start_time == date)
  let joined := matching.filterMap
    (fun r => (st.tables.find? (fun t => t.id == r.table_id)).map
      (fun t => ResvRow.mk r t.table_number t.capacity))
  sortLe (fun a b => a.reservation.start_time ≤ b.reservation.start_time) joined

def getReservationsByDate (st : AppState) (rid : Int) (date : String) :
    ResByDateResult :=
  if ! isDateShape date then .badDateFormat
  else
    match st.restaurants.find? (fun r => r.id == rid) with
    | none => .restaurantNotFound
    | some _ => .ok (dayRows st rid date)

/-! ## Availability search (`reservationController.js` lines 192-260) -/

structure Slot where
  time : Int
  table_id : Int
  table_number : Int
deriving DecidableEq, Repr

inductive AvailResult where
  | restaurantNotFound
  | ok (available_slots : List Slot)
deriving DecidableEq, Repr

/-- First component of `"HH:MM".split(':')`: the characters before the
first `':'` (the whole string when there is none). -/
def firstComp (s : String) : String := ⟨s.data.takeWhile (fun c => c ≠ ':')⟩

/-- The hours visited by `for (let h = openHour; h < closeHour; h++)`;
`none` models a `NaN` bound, under which the comparison is always false. -/
def hourRange (openH closeH : Option Nat) : List Nat :=
  match openH, closeH with
  | some a, some b => (List.range (b - a)).map (fun i => a + i)
  | _, _ => []

/-- The `availableTables` query (lines 214-217): tables of the restaurant
with enough capacity, in ascending capacity order. -/
def eligibleTables (st : AppState) (rid party : Int) : List RTable :=
  sortLe (fun a b => a.capacity ≤ b.capacity)
    (st.tables.filter (fun t => t.restaurant_id == rid && t.capacity ≥ party))

/-- The instant of the slot at `h:m` on day `d`. -/
def slotInstant (d : Int) (h m : Nat) : Int := 1440 * d + 60 * h + m

/-- One iteration of the inner slot loop: probe the eligible tables in
order with a fixed 90-minute duration and keep the first free one. -/
def slotProbe (resv : List Reservation) (tables : List RTable) (d : Int) (h m : Nat) :
    Option Slot :=
  match tables.find?
      (fun t => ! checkForOverlaps resv t.id (slotInstant d h m) 90) with
  | some t => some (Slot.mk (slotInstant d h m) t.id t.table_number)
  | none => none

/-- The nested slot loops (lines 230-254). -/
def slotLoop (resv : List Reservation) (tables : List RTable) (d : Int)
    (openH closeH : Option Nat) : List Slot :=
  (hourRange openH closeH).flatMap
    (fun h => ([0, 15, 30, 45] : List Nat).filterMap (slotProbe resv tables d h))

/-- Controller `getAvailableSlots` minus HTTP concerns: the query parameters arrive
parsed (`d` is the day index of the `date` parameter, so the slot at
`h:m` is the instant `1440*d + 60*h + m`; the missing-parameter 400 of
lines 197-201 is elided).  Tables with enough capacity are fetched in
ascending capacity order; each quarter-hour slot strictly before the
closing hour is probed with a fixed 90-minute duration, and the first free
table (if any) is emitted for the slot. -/
def getAvailableSlots (st : AppState) (rid : Int) (d : Int) (party : Int) :
    AvailResult :=
  match st.restaurants.find? (fun r => r.id == rid) with
  | none => .restaurantNotFound
  | some restaurant =>
    if (eligibleTables st rid party).isEmpty then .ok []
    else
      .ok (slotLoop st.reservations (eligibleTables st rid party) d
        (jsNumber (firstComp restaurant.opening_time))
        (jsNumber (firstComp restaurant.closing_time)))

/-! ## Reachable states

The API's state-changing operations are restaurant creation, table
creation, reservation creation and cancellation (`routes/index.js`); every
other endpoint only reads. -/

inductive Reachable : AppState → Prop where
  | init : Reachable initialState
  | createRestaurant (s : AppState) (name opening closing : String) (now : Clock) :
      Reachable s → Reachable (createRestaurant s name opening closing now).2
  | addTable (s : AppState) (param : Option String) (body : AddTableBody) :
      Reachable s → Reachable (addTable s param body).2
  | createReservation (s : AppState) (req : CreateReq) (now : Clock) :
      Reachable s → Reachable (createReservation s req now).2
  | cancelReservation (s : AppState) (rid : Int) :
      Reachable s → Reachable (cancelReservation s rid).2

/-! ## Invariants -/

/-- A reservation counts against double-booking while its status is
`'confirmed'` or `'pending'`. -/
def activeStatus (r : Reservation) : Bool :=
  r.status == "confirmed" || r.status == "pending"

/-- Half-open interval intersection: `[s1, s1+d1)` meets `[s2, s2+d2)`. -/
def intervalsIntersect (s1 d1 s2 d2 : Int) : Prop :=
  s1 < s2 + d2 ∧ s2 < s1 + d1

instance (s1 d1 s2 d2 : Int) : Decidable (intervalsIntersect s1 d1 s2 d2) :=
  inferInstanceAs (Decidable (And _ _))

/-- Two reservation rows are compatible when, if they are on the same table
and both active, their intervals do not intersect. -/
def ResCompat (r1 r2 : Reservation) : Prop :=
  r1.table_id = r2.table_id → activeStatus r1 = true → activeStatus r2 = true →
    ¬ intervalsIntersect r1.start_time r1.duration_minutes
        r2.start_time r2.duration_minutes

/-- No two active reservations on the same table overlap. -/
def NoDoubleBooking (s : AppState) : Prop :=
  s.reservations.Pairwise ResCompat

/-- Invariant carried by every reachable state: the no-double-booking
property, the validated lower bound on stored durations, and the zod time
shape of every stored restaurant's operating times. -/
structure StateInv (s : AppState) : Prop where
  noDouble : NoDoubleBooking s
  durLB : ∀ r ∈ s.reservations, 15 ≤ r.duration_minutes
  restTimes : ∀ r ∈ s.restaurants,
    timeShapeOk r.opening_time = true ∧ timeShapeOk r.closing_time = true

theorem resCompat_symm : ∀ r1 r2 : Reservation, ResCompat r1 r2 → ResCompat r2 r1 := by
  intro r1 r2 h htab ha2 ha1 hint
  exact h htab.symm ha1 ha2 ⟨hint.2, hint.1⟩

/-- A row passing the overlap query's filter intersects the requested
interval, provided both durations are positive. -/
theorem overlapRowMatches_intersect (table_id startT dur : Int) (r : Reservation)
    (hdur : 0 < dur) (hrdur : 0 < r.duration_minutes)
    (h : overlapRowMatches table_id startT (startT + dur) r = true) :
    r.table_id = table_id ∧ activeStatus r = true ∧
      intervalsIntersect r.start_time r.duration_minutes startT dur := by
  simp only [overlapRowMatches, Bool.and_eq_true, Bool.or_eq_true, beq_iff_eq,
    decide_eq_true_eq] at h
  obtain ⟨⟨htab, hstat⟩, hcond⟩ := h
  refine ⟨htab, ?_, ?_⟩
  · simp only [activeStatus, Bool.or_eq_true, beq_iff_eq]
    exact hstat
  · rcases hcond with ⟨h1, h2⟩ | he
    · exact ⟨h1, h2⟩
    · constructor <;> omega

/-- Conversely, an active same-table row whose interval intersects the
requested one passes the filter (the strict half-open test alone suffices). -/
theorem intersect_overlapRowMatches (table_id startT dur : Int) (r : Reservation)
    (htab : r.table_id = table_id) (hact : activeStatus r = true)
    (hint : intervalsIntersect r.start_time r.duration_minutes startT dur) :
    overlapRowMatches table_id startT (startT + dur) r = true := by
  simp only [activeStatus, Bool.or_eq_true, beq_iff_eq] at hact
  simp only [overlapRowMatches, Bool.and_eq_true, Bool.or_eq_true, beq_iff_eq,
    decide_eq_true_eq]
  exact ⟨⟨htab, hact⟩, Or.inl ⟨hint.1, hint.2⟩⟩

/-- The check `checkForOverlaps` is false iff no stored row passes the filter. -/
theorem checkForOverlaps_eq_false_iff (resv : List Reservation) (table_id startT dur : Int) :
    checkForOverlaps resv table_id startT dur = false ↔
      ∀ r ∈ resv, overlapRowMatches table_id startT (startT + dur) r = false := by
  simp only [checkForOverlaps, decide_eq_false_iff_not, not_lt, Nat.le_zero,
    List.length_eq_zero, List.filter_eq_nil_iff]
  constructor
  · intro h r hr
    exact Bool.eq_false_iff.mpr (h r hr)
  · intro h r hr
    exact Bool.eq_false_iff.mp (h r hr)

theorem checkForOverlaps_eq_true_iff (resv : List Reservation) (table_id startT dur : Int) :
    checkForOverlaps resv table_id startT dur = true ↔
      ∃ r ∈ resv, overlapRowMatches table_id startT (startT + dur) r = true := by
  constructor
  · intro h
    have h1 : 0 < (resv.filter (overlapRowMatches table_id startT (startT + dur))).length := by
      simpa [checkForOverlaps] using h
    obtain ⟨r, hr⟩ := List.exists_mem_of_ne_nil _ (List.length_pos.mp h1)
    exact ⟨r, (List.mem_filter.mp hr).1, (List.mem_filter.mp hr).2⟩
  · rintro ⟨r, hr, hp⟩
    have hmem : r ∈ resv.filter (overlapRowMatches table_id startT (startT + dur)) :=
      List.mem_filter.mpr ⟨hr, hp⟩
    simpa [checkForOverlaps] using List.length_pos.mpr (List.ne_nil_of_mem hmem)

/-! ## Preservation of the invariant -/

theorem createRestaurant_inv (s : AppState) (name opening closing : String)
    (now : Clock) (h : StateInv s) :
    StateInv (createRestaurant s name opening closing now).2 := by
  unfold createRestaurant
  split
  · next hc =>
    simp only [Bool.and_eq_true] at hc
    refine ⟨h.noDouble, h.durLB, ?_⟩
    intro r hr
    simp only [List.mem_append, List.mem_singleton] at hr
    rcases hr with h1 | h2
    · exact h.restTimes r h1
    · subst h2
      exact ⟨hc.1.2, hc.2⟩
  · exact h

theorem addTable_inv (s : AppState) (param : Option String) (body : AddTableBody)
    (h : StateInv s) : StateInv (addTable s param body).2 := by
  unfold addTable
  split
  · exact h
  · split
    · split
      · split
        · exact h
        · split
          · exact h
          · exact ⟨h.noDouble, h.durLB, h.restTimes⟩
      · exact h
    · exact h

theorem createReservation_inv (s : AppState) (req : CreateReq) (now : Clock)
    (h : StateInv s) : StateInv (createReservation s req now).2 := by
  unfold createReservation
  split
  · exact h
  next hval =>
  split
  · exact h
  next restaurant hrst =>
  split
  · exact h
  next table htab =>
  split
  · exact h
  split
  · exact h
  split
  · exact h
  next hnoov =>
  rw [Bool.not_eq_true] at hnoov
  have hval2 : validateReq req = true := by
    rw [Bool.not_eq_true] at hval
    simpa using hval
  have hdur : 15 ≤ req.duration_minutes := by
    simp only [validateReq, Bool.and_eq_true, decide_eq_true_eq] at hval2
    omega
  refine ⟨?_, ?_, h.restTimes⟩
  · have hrows := (checkForOverlaps_eq_false_iff
      s.reservations req.table_id req.start_time req.duration_minutes).mp hnoov
    refine List.pairwise_append.mpr ⟨h.noDouble, List.pairwise_singleton _ _, ?_⟩
    intro r1 hr1 r2 hr2
    simp only [List.mem_singleton] at hr2
    subst hr2
    intro htabeq hact1 hact2 hint
    have hmatch := intersect_overlapRowMatches req.table_id req.start_time
      req.duration_minutes r1 htabeq hact1 hint
    rw [hrows r1 hr1] at hmatch
    exact Bool.false_ne_true hmatch
  · intro r hr
    simp only [List.mem_append, List.mem_singleton] at hr
    rcases hr with h1 | h2
    · exact h.durLB r h1
    · subst h2
      exact hdur

theorem cancelReservation_inv (s : AppState) (rid : Int) (h : StateInv s) :
    StateInv (cancelReservation s rid).2 := by
  unfold cancelReservation
  split
  · exact h
  · refine ⟨?_, ?_, h.restTimes⟩
    · show (cancelUpdate s.reservations rid).Pairwise ResCompat
      unfold cancelUpdate
      refine List.Pairwise.map _ ?_ h.noDouble
      intro a b hab
      intro htab hacta hactb
      by_cases ha : (a.id == rid) = true
      · simp only [ha, if_true, activeStatus] at hacta
        simp at hacta
      · by_cases hb : (b.id == rid) = true
        · simp only [hb, if_true, activeStatus] at hactb
          simp at hactb
        · simp only [ha, hb, if_false, Bool.false_eq_true] at htab hacta hactb ⊢
          exact hab htab hacta hactb
    · intro r hr
      simp only [cancelUpdate, List.mem_map] at hr
      obtain ⟨a, ha, rfl⟩ := hr
      by_cases hid : (a.id == rid) = true
      · simp only [hid, if_true]
        exact h.durLB a ha
      · simp only [hid, if_false, Bool.false_eq_true]
        exact h.durLB a ha

/-- The shared invariant holds in every reachable state. -/
theorem reachable_inv (s : AppState) (h : Reachable s) : StateInv s := by
  induction h with
  | init =>
    exact ⟨List.Pairwise.nil, fun r hr => (nomatch hr), fun r hr => (nomatch hr)⟩
  | createRestaurant s name opening closing now _ ih =>
    exact createRestaurant_inv s name opening closing now ih
  | addTable s param body _ ih => exact addTable_inv s param body ih
  | createReservation s req now _ ih => exact createReservation_inv s req now ih
  | cancelReservation s rid _ ih => exact cancelReservation_inv s rid ih

/-! ## Lemmas about the generic insertion sort -/

theorem mem_insertLe {α : Type} (le : α → α → Bool) (x a : α) (l : List α) :
    a ∈ insertLe le x l ↔ a = x ∨ a ∈ l := by
  induction l with
  | nil => simp [insertLe]
  | cons y ys ih =>
    simp only [insertLe]
    split
    · simp [List.mem_cons]
    · simp only [List.mem_cons, ih]
      tauto

theorem mem_sortLe {α : Type} (le : α → α → Bool) (a : α) (l : List α) :
    a ∈ sortLe le l ↔ a ∈ l := by
  induction l with
  | nil => simp [sortLe]
  | cons y ys ih =>
    simp only [sortLe, mem_insertLe, List.mem_cons, ih]

theorem pairwise_insertLe {α : Type} {le : α → α → Bool}
    (htot : ∀ a b, le a b = false → le b a = true)
    (htrans : ∀ a b c, le a b = true → le b c = true → le a c = true)
    (x : α) (l : List α) (hl : l.Pairwise (fun a b => le a b = true)) :
    (insertLe le x l).Pairwise (fun a b => le a b = true) := by
  induction l with
  | nil => simp [insertLe]
  | cons y ys ih =>
    obtain ⟨hy, hys⟩ := List.pairwise_cons.mp hl
    simp only [insertLe]
    split
    · next hxy =>
      refine List.pairwise_cons.mpr ⟨?_, hl⟩
      intro b hb
      rcases List.mem_cons.mp hb with rfl | hbys
      · exact hxy
      · exact htrans x y b hxy (hy b hbys)
    · next hxy =>
      have hyx : le y x = true := htot x y (Bool.eq_false_iff.mpr hxy)
      refine List.pairwise_cons.mpr ⟨?_, ih hys⟩
      intro b hb
      rcases (mem_insertLe le x b ys).mp hb with rfl | hbys
      · exact hyx
      · exact hy b hbys

theorem pairwise_sortLe {α : Type} {le : α → α → Bool}
    (htot : ∀ a b, le a b = false → le b a = true)
    (htrans : ∀ a b c, le a b = true → le b c = true → le a c = true)
    (l : List α) : (sortLe le l).Pairwise (fun a b => le a b = true) := by
  induction l with
  | nil => exact List.Pairwise.nil
  | cons y ys ih => exact pairwise_insertLe htot htrans y (sortLe le ys) ih

/-- The element returned by `find?` on a sorted list is minimal among the
elements satisfying the predicate. -/
theorem find?_minimal {α : Type} {le : α → α → Bool} {p : α → Bool} :
    ∀ {l : List α}, l.Pairwise (fun a b => le a b = true) →
      ∀ {t : α}, l.find? p = some t → ∀ b ∈ l, p b = true → le t b = true ∨ t = b
  | [], _, _, hfind => by simp at hfind
  | x :: xs, hl, t, hfind => by
    obtain ⟨hx, hxs⟩ := List.pairwise_cons.mp hl
    intro b hb hpb
    by_cases hpx : p x = true
    · rw [List.find?_cons_of_pos _ hpx] at hfind
      injection hfind with ht
      subst ht
      rcases List.mem_cons.mp hb with rfl | hbxs
      · exact Or.inr rfl
      · exact Or.inl (hx b hbxs)
    · rw [List.find?_cons_of_neg _ hpx] at hfind
      rcases List.mem_cons.mp hb with rfl | hbxs
      · exact absurd hpb hpx
      · exact find?_minimal hxs hfind b hbxs hpb

/-- A `filterMap` preserves pairwise relations along a transport function. -/
theorem pairwise_filterMap_of {α β : Type} {R : β → β → Prop} {S : α → α → Prop}
    (g : α → Option β) :
    ∀ {l : List α}, l.Pairwise S →
      (∀ a b, S a b → ∀ x y, g a = some x → g b = some y → R x y) →
      (l.filterMap g).Pairwise R
  | [], _, _ => List.Pairwise.nil
  | a :: l, hp, h => by
    obtain ⟨ha, hl⟩ := List.pairwise_cons.mp hp
    rw [List.filterMap_cons]
    cases hg : g a with
    | none => exact pairwise_filterMap_of g hl h
    | some x =>
      refine List.pairwise_cons.mpr ⟨?_, pairwise_filterMap_of g hl h⟩
      intro y hy
      obtain ⟨b, hb, hgb⟩ := List.mem_filterMap.mp hy
      exact h a b (ha b hb) x y hg hgb

/-! ## JS string comparison is lexicographic order -/

theorem jsCharListLt_iff : ∀ a b : List Char, jsCharListLt a b = true ↔ List.lt a b
  | [], [] => by
    simp only [jsCharListLt, Bool.false_eq_true, false_iff]
    intro h
    cases h
  | [], b :: bs => by
    simp only [jsCharListLt, true_iff]
    exact List.lt.nil b bs
  | a :: as, [] => by
    simp only [jsCharListLt, Bool.false_eq_true, false_iff]
    intro h
    cases h
  | a :: as, b :: bs => by
    simp only [jsCharListLt]
    split
    · next hab =>
      simp only [true_iff]
      exact List.lt.head as bs hab
    · next hab =>
      split
      · next hba =>
        simp only [Bool.false_eq_true, false_iff]
        intro hlt
        cases hlt with
        | head _ _ h => exact hab h
        | tail h1 h2 _ => exact h2 hba
      · next hba =>
        rw [jsCharListLt_iff as bs]
        constructor
        · intro h
          exact List.lt.tail hab hba h
        · intro hlt
          cases hlt with
          | head _ _ h => exact absurd h hab
          | tail _ _ h3 => exact h3

theorem jsStrLt_iff (a b : String) : jsStrLt a b = true ↔ a < b := by
  rw [jsStrLt, jsCharListLt_iff, String.lt_iff_toList_lt]
  exact List.lt_iff_lex_lt a.data b.data

theorem jsStrGe_iff (a b : String) : jsStrGe a b = true ↔ b ≤ a := by
  rw [jsStrGe, Bool.not_eq_true', ← not_lt (α := String)]
  constructor
  · intro h hlt
    exact absurd ((jsStrLt_iff a b).mpr hlt) (Bool.eq_false_iff.mp h)
  · intro h
    exact Bool.eq_false_iff.mpr fun ht => h ((jsStrLt_iff a b).mp ht)

theorem jsStrLe_iff (a b : String) : jsStrLe a b = true ↔ a ≤ b := by
  rw [jsStrLe, Bool.not_eq_true', ← not_lt (α := String)]
  constructor
  · intro h hlt
    exact absurd ((jsStrLt_iff b a).mpr hlt) (Bool.eq_false_iff.mp h)
  · intro h
    exact Bool.eq_false_iff.mpr fun ht => h ((jsStrLt_iff b a).mp ht)

/-! ## Concrete demonstration data (used by the witnesses) -/

def demoClock : Clock := ⟨2026, 1, 10, 9, 0, 0, 0⟩

def demoState0 : AppState :=
  (createRestaurant initialState "R" "10:00" "22:00" demoClock).2

def demoState1 : AppState :=
  (addTable demoState0 (some "1") ⟨none, some 1, some 4⟩).2

def demoReq1 : CreateReq := ⟨1, 1, "John Doe", "1234567890", 2, 720, 90⟩

def demoState : AppState := (createReservation demoState1 demoReq1 demoClock).2

def demoRow : Reservation := reservationRow demoState1 demoReq1 demoClock

def demoReq2 : CreateReq := ⟨1, 1, "Jane Roe", "0123456789", 2, 750, 90⟩

def demoRestaurant : Restaurant := ⟨1, "R", "10:00", "22:00", sqliteNow demoClock⟩

def demoTable : RTable := ⟨1, 1, 1, 4⟩

theorem demoState_reachable : Reachable demoState :=
  Reachable.createReservation demoState1 demoReq1 demoClock
    (Reachable.addTable demoState0 (some "1") ⟨none, some 1, some 4⟩
      (Reachable.createRestaurant initialState "R" "10:00" "22:00" demoClock
        Reachable.init))

/-! ## Claim C2 — overlap checker semantics -/

theorem overlapRowMatches_active (table_id startT endT : Int) (r : Reservation)
    (h : overlapRowMatches table_id startT endT r = true) : activeStatus r = true := by
  simp only [overlapRowMatches, Bool.and_eq_true] at h
  simp only [activeStatus]
  exact h.1.2

/-- C2: for every table id, start and positive duration, the overlap
checker returns true exactly when some persisted reservation on that table
with status `'confirmed'` or `'pending'` satisfies
`start < requested_start + duration AND start + own_duration >
requested_start`, or starts exactly at the requested start; it is false
when the table has no reservations at all, and `'cancelled'` /
`'completed'` rows never count (dropping all inactive rows does not change
the answer).  The checker is a pure read: it is a function of the stored
rows only and returns a Bool. -/
theorem c2_overlap_checker_semantics (resv : List Reservation)
    (table_id startT dur : Int) (hdur : 0 < dur) :
    (checkForOverlaps resv table_id startT dur = true ↔
      ∃ r ∈ resv, r.table_id = table_id ∧
        (r.status = "confirmed" ∨ r.status = "pending") ∧
        ((r.start_time < startT + dur ∧ r.start_time + r.duration_minutes > startT) ∨
          r.start_time = startT)) ∧
    ((∀ r ∈ resv, r.table_id ≠ table_id) →
      checkForOverlaps resv table_id startT dur = false) ∧
    (checkForOverlaps (resv.filter activeStatus) table_id startT dur =
      checkForOverlaps resv table_id startT dur) := by
  refine ⟨?_, ?_, ?_⟩
  · rw [checkForOverlaps_eq_true_iff]
    constructor
    · rintro ⟨r, hr, hm⟩
      refine ⟨r, hr, ?_⟩
      simpa only [overlapRowMatches, Bool.and_eq_true, Bool.or_eq_true, beq_iff_eq,
        decide_eq_true_eq, and_assoc] using hm
    · rintro ⟨r, hr, hm⟩
      refine ⟨r, hr, ?_⟩
      simpa only [overlapRowMatches, Bool.and_eq_true, Bool.or_eq_true, beq_iff_eq,
        decide_eq_true_eq, and_assoc] using hm
  · intro h
    rw [checkForOverlaps_eq_false_iff]
    intro r hr
    have hne : (r.table_id == table_id) = false := beq_eq_false_iff_ne.mpr (h r hr)
    simp [overlapRowMatches, hne]
  · by_cases h : checkForOverlaps resv table_id startT dur = true
    · rw [h]
      rw [checkForOverlaps_eq_true_iff] at h ⊢
      obtain ⟨r, hr, hm⟩ := h
      exact ⟨r, List.mem_filter.mpr ⟨hr, overlapRowMatches_active _ _ _ r hm⟩, hm⟩
    · rw [Bool.not_eq_true] at h
      rw [h]
      rw [checkForOverlaps_eq_false_iff] at h ⊢
      intro r hr
      exact h r (List.mem_filter.mp hr).1

/-- C2 witness: the checker evaluated on the demonstration state. -/
theorem c2_witness :
    (0 : Int) < 90 ∧
      ((checkForOverlaps demoState.reservations 1 750 90 = true ↔
        ∃ r ∈ demoState.reservations, r.table_id = 1 ∧
          (r.status = "confirmed" ∨ r.status = "pending") ∧
          ((r.start_time < 750 + 90 ∧ r.start_time + r.duration_minutes > 750) ∨
            r.start_time = 750)) ∧
      ((∀ r ∈ demoState.reservations, r.table_id ≠ 1) →
        checkForOverlaps demoState.reservations 1 750 90 = false) ∧
      (checkForOverlaps (demoState.reservations.filter activeStatus) 1 750 90 =
        checkForOverlaps demoState.reservations 1 750 90)) :=
  ⟨by decide, c2_overlap_checker_semantics demoState.reservations 1 750 90 (by decide)⟩

/-! ## Claim C3 — operating-hours check -/

theorem getHoursJs_period (t j : Int) : getHoursJs (t + 1440 * j) = getHoursJs t := by
  unfold getHoursJs
  congr 1
  omega

theorem getMinutesJs_period (t j : Int) : getMinutesJs (t + 1440 * j) = getMinutesJs t := by
  unfold getMinutesJs
  congr 1
  omega

theorem hhmmOf_period (t j : Int) : hhmmOf (t + 1440 * j) = hhmmOf t := by
  unfold hhmmOf
  rw [getHoursJs_period, getMinutesJs_period]

/-- C3: the operating-hours check formats the start and end instants as
zero-padded wall-clock `"HH:MM"` strings and succeeds exactly when
`start_hhmm >= opening_time` and `end_hhmm <= closing_time` under
lexicographic string comparison (Lean's `≤` on `String`); shifting either
endpoint by whole days never changes the outcome, so the date component
plays no role. -/
theorem c3_operating_hours (rst : Restaurant) (startT endT : Int) :
    (isWithinOperatingHours rst startT endT = true ↔
      (rst.opening_time ≤ pad2 (getHoursJs startT) ++ ":" ++ pad2 (getMinutesJs startT) ∧
        pad2 (getHoursJs endT) ++ ":" ++ pad2 (getMinutesJs endT) ≤ rst.closing_time)) ∧
    (∀ j k : Int, isWithinOperatingHours rst (startT + 1440 * j) (endT + 1440 * k) =
      isWithinOperatingHours rst startT endT) := by
  constructor
  · rw [isWithinOperatingHours, Bool.and_eq_true, jsStrGe_iff, jsStrLe_iff]
    exact Iff.rfl
  · intro j k
    rw [isWithinOperatingHours, isWithinOperatingHours, hhmmOf_period, hhmmOf_period]

/-! ## Claim C1 — no-double-booking invariant -/

/-- The checks of `createReservation` that precede the overlap check:
schema validation, restaurant lookup, table lookup, capacity, operating
hours. -/
def passesPreChecks (st : AppState) (req : CreateReq) : Bool :=
  validateReq req &&
    (match st.restaurants.find? (fun r => r.id == req.restaurant_id) with
     | none => false
     | some restaurant =>
       match st.tables.find?
           (fun t => t.id == req.table_id && t.restaurant_id == req.restaurant_id) with
       | none => false
       | some table =>
         decide (req.party_size ≤ table.capacity) &&
           isWithinOperatingHours restaurant req.start_time
             (req.start_time + req.duration_minutes))

/-- C1: in every state reachable through the API's operations no two
reservations with status `'confirmed'` or `'pending'` on the same table
have intersecting half-open `[start, start + duration)` intervals; and
whenever an active reservation `r1` on the requested table intersects the
requested interval, a creation request that passes all earlier checks
fails with Conflict (409) and leaves the state — in particular the stored
rows — unchanged. -/
theorem c1_no_double_booking :
    (∀ s : AppState, Reachable s → NoDoubleBooking s) ∧
    (∀ (s : AppState) (req : CreateReq) (now : Clock) (r1 : Reservation),
      r1 ∈ s.reservations → activeStatus r1 = true → r1.table_id = req.table_id →
      intervalsIntersect r1.start_time r1.duration_minutes
        req.start_time req.duration_minutes →
      passesPreChecks s req = true →
      createReservation s req now = (CreateResult.conflict, s)) := by
  constructor
  · intro s hs
    exact (reachable_inv s hs).noDouble
  · intro s req now r1 hr1 hact htab hint hpre
    rw [passesPreChecks, Bool.and_eq_true] at hpre
    obtain ⟨hval, hrest⟩ := hpre
    rcases hfr : s.restaurants.find? (fun r => r.id == req.restaurant_id) with _ | restaurant
    · rw [hfr] at hrest
      exact absurd hrest (by simp)
    rcases hft : s.tables.find?
        (fun t => t.id == req.table_id && t.restaurant_id == req.restaurant_id) with _ | table
    · rw [hfr, hft] at hrest
      exact absurd hrest (by simp)
    rw [hfr, hft, Bool.and_eq_true, decide_eq_true_eq] at hrest
    obtain ⟨hcap, hhours⟩ := hrest
    have hov : checkForOverlaps s.reservations req.table_id
        req.start_time req.duration_minutes = true :=
      (checkForOverlaps_eq_true_iff _ _ _ _).mpr
        ⟨r1, hr1, intersect_overlapRowMatches _ _ _ r1 htab hact hint⟩
    unfold createReservation
    rw [hval, hfr, hft]
    simp [hhours, hov, not_lt.mpr hcap]

/-- C1 witness: the demonstration state (restaurant, table, one confirmed
12:00–13:30 reservation) is double-booking-free, and a request for the
same table at 12:30 for 90 minutes is rejected with Conflict, state
unchanged. -/
theorem c1_witness :
    NoDoubleBooking demoState ∧
      createReservation demoState demoReq2 demoClock = (CreateResult.conflict, demoState) :=
  ⟨c1_no_double_booking.1 demoState demoState_reachable,
    c1_no_double_booking.2 demoState demoReq2 demoClock demoRow (by decide) (by decide)
      (by decide) (by decide) (by decide)⟩

/-! ## Claim C4 — check order, distinct errors, effects -/

/-- C4: after schema validation, `createReservation` runs its checks in a
fixed short-circuit order — absent restaurant, absent/foreign table,
capacity (error carrying the table's capacity and the requested size),
operating hours, overlap — each failure yielding its distinct result and
leaving the state unchanged, with later conditions never influencing an
earlier failure; when every check passes, the new state appends exactly
one row, whose status is forced to `'confirmed'`. -/
theorem c4_check_order (s : AppState) (req : CreateReq) (now : Clock)
    (hval : validateReq req = true) :
    (s.restaurants.find? (fun r => r.id == req.restaurant_id) = none →
      createReservation s req now = (CreateResult.restaurantNotFound, s)) ∧
    (∀ restaurant,
      s.restaurants.find? (fun r => r.id == req.restaurant_id) = some restaurant →
      s.tables.find?
          (fun t => t.id == req.table_id && t.restaurant_id == req.restaurant_id) = none →
      createReservation s req now = (CreateResult.tableNotFound, s)) ∧
    (∀ restaurant table,
      s.restaurants.find? (fun r => r.id == req.restaurant_id) = some restaurant →
      s.tables.find?
          (fun t => t.id == req.table_id && t.restaurant_id == req.restaurant_id) =
        some table →
      req.party_size > table.capacity →
      createReservation s req now =
        (CreateResult.capacityExceeded table.capacity req.party_size, s)) ∧
    (∀ restaurant table,
      s.restaurants.find? (fun r => r.id == req.restaurant_id) = some restaurant →
      s.tables.find?
          (fun t => t.id == req.table_id && t.restaurant_id == req.restaurant_id) =
        some table →
      req.party_size ≤ table.capacity →
      isWithinOperatingHours restaurant req.start_time
        (req.start_time + req.duration_minutes) = false →
      createReservation s req now =
        (CreateResult.outOfHours restaurant.opening_time restaurant.closing_time, s)) ∧
    (∀ restaurant table,
      s.restaurants.find? (fun r => r.id == req.restaurant_id) = some restaurant →
      s.tables.find?
          (fun t => t.id == req.table_id && t.restaurant_id == req.restaurant_id) =
        some table →
      req.party_size ≤ table.capacity →
      isWithinOperatingHours restaurant req.start_time
        (req.start_time + req.duration_minutes) = true →
      checkForOverlaps s.reservations req.table_id
        req.start_time req.duration_minutes = true →
      createReservation s req now = (CreateResult.conflict, s)) ∧
    (∀ restaurant table,
      s.restaurants.find? (fun r => r.id == req.restaurant_id) = some restaurant →
      s.tables.find?
          (fun t => t.id == req.table_id && t.restaurant_id == req.restaurant_id) =
        some table →
      req.party_size ≤ table.capacity →
      isWithinOperatingHours restaurant req.start_time
        (req.start_time + req.duration_minutes) = true →
      checkForOverlaps s.reservations req.table_id
        req.start_time req.duration_minutes = false →
      createReservation s req now =
        (CreateResult.created (reservationResponse s req now),
          { s with reservations := s.reservations ++ [reservationRow s req now],
                   nextReservationId := s.nextReservationId + 1 }) ∧
        (reservationRow s req now).status = "confirmed") := by
  refine ⟨?_, ?_, ?_, ?_, ?_, ?_⟩
  · intro hfr
    unfold createReservation
    rw [hval, hfr]
    simp
  · intro restaurant hfr hft
    unfold createReservation
    rw [hval, hfr, hft]
    simp
  · intro restaurant table hfr hft hcap
    unfold createReservation
    rw [hval, hfr, hft]
    simp [hcap]
  · intro restaurant table hfr hft hcap hhours
    unfold createReservation
    rw [hval, hfr, hft]
    simp [hhours, not_lt.mpr hcap]
  · intro restaurant table hfr hft hcap hhours hov
    unfold createReservation
    rw [hval, hfr, hft]
    simp [hhours, hov, not_lt.mpr hcap]
  · intro restaurant table hfr hft hcap hhours hov
    unfold createReservation
    rw [hval, hfr, hft]
    refine ⟨?_, rfl⟩
    simp [hhours, hov, not_lt.mpr hcap]

/-- C4 witness: the success branch on the demonstration state, inserting
exactly one `'confirmed'` row. -/
theorem c4_witness :
    validateReq demoReq1 = true ∧
      createReservation demoState1 demoReq1 demoClock =
        (CreateResult.created (reservationResponse demoState1 demoReq1 demoClock),
          { demoState1 with
              reservations := demoState1.reservations ++ [demoRow],
              nextReservationId := demoState1.nextReservationId + 1 }) ∧
      demoRow.status = "confirmed" :=
  ⟨by decide,
    (c4_check_order demoState1 demoReq1 demoClock (by decide)).2.2.2.2.2
      demoRestaurant demoTable (by decide) (by decide) (by decide) (by decide) (by decide)⟩

/-! ## Claim C6 — response vs persisted row -/

/-- C6 counterexample: a successful creation whose response `created_at`
(`new Date().toISOString()`) differs from the `created_at` stored in the
inserted row (the SQLite default `datetime('now')` format), so the
response does not equal the persisted record field-for-field. -/
theorem c6_counterexample :
    (createReservation demoState1 demoReq1 demoClock).1 =
        CreateResult.created (reservationResponse demoState1 demoReq1 demoClock) ∧
      (createReservation demoState1 demoReq1 demoClock).2.reservations = [demoRow] ∧
      (reservationResponse demoState1 demoReq1 demoClock).created_at ≠
        demoRow.created_at := by
  decide

/-- C6 amended: on success the response carries the server-assigned id and
agrees with the persisted row on every column except `created_at`; the
response's `created_at` is a freshly formatted ISO timestamp
(`new Date().toISOString()`), while the row's stored `created_at` is the
SQLite `datetime('now')` default, so the response is not the persisted
record field-for-field. -/
theorem c6_response_vs_row (s : AppState) (req : CreateReq) (now : Clock)
    (resp : Reservation) (s2 : AppState)
    (h : createReservation s req now = (CreateResult.created resp, s2)) :
    resp = reservationResponse s req now ∧
      s2.reservations = s.reservations ++ [reservationRow s req now] ∧
      resp.id = (reservationRow s req now).id ∧
      resp.restaurant_id = (reservationRow s req now).restaurant_id ∧
      resp.table_id = (reservationRow s req now).table_id ∧
      resp.customer_name = (reservationRow s req now).customer_name ∧
      resp.phone = (reservationRow s req now).phone ∧
      resp.party_size = (reservationRow s req now).party_size ∧
      resp.start_time = (reservationRow s req now).start_time ∧
      resp.duration_minutes = (reservationRow s req now).duration_minutes ∧
      resp.status = (reservationRow s req now).status ∧
      resp.created_at = isoNow now ∧
      (reservationRow s req now).created_at = sqliteNow now := by
  unfold createReservation at h
  split at h
  · simp at h
  split at h
  · simp at h
  split at h
  · simp at h
  split at h
  · simp at h
  split at h
  · simp at h
  split at h
  · simp at h
  rw [Prod.mk.injEq] at h
  obtain ⟨hresp, hstate⟩ := h
  injection hresp with hresp
  subst hresp
  subst hstate
  refine ⟨rfl, rfl, rfl, rfl, rfl, rfl, rfl, rfl, rfl, rfl, rfl, rfl, rfl⟩

/-- C6 amended-claim witness at the demonstration input. -/
theorem c6_witness :
    reservationResponse demoState1 demoReq1 demoClock =
        reservationResponse demoState1 demoReq1 demoClock ∧
      demoState.reservations = demoState1.reservations ++ [demoRow] ∧
      (reservationResponse demoState1 demoReq1 demoClock).id = demoRow.id ∧
      (reservationResponse demoState1 demoReq1 demoClock).restaurant_id =
        demoRow.restaurant_id ∧
      (reservationResponse demoState1 demoReq1 demoClock).table_id = demoRow.table_id ∧
      (reservationResponse demoState1 demoReq1 demoClock).customer_name =
        demoRow.customer_name ∧
      (reservationResponse demoState1 demoReq1 demoClock).phone = demoRow.phone ∧
      (reservationResponse demoState1 demoReq1 demoClock).party_size =
        demoRow.party_size ∧
      (reservationResponse demoState1 demoReq1 demoClock).start_time =
        demoRow.start_time ∧
      (reservationResponse demoState1 demoReq1 demoClock).duration_minutes =
        demoRow.duration_minutes ∧
      (reservationResponse demoState1 demoReq1 demoClock).status = demoRow.status ∧
      (reservationResponse demoState1 demoReq1 demoClock).created_at =
        isoNow demoClock ∧
      demoRow.created_at = sqliteNow demoClock :=
  c6_response_vs_row demoState1 demoReq1 demoClock
    (reservationResponse demoState1 demoReq1 demoClock) demoState (by decide)

/-! ## Claim C7 — cancellation semantics -/

theorem map_congr_mem {α β : Type} {f g : α → β} :
    ∀ {l : List α}, (∀ a ∈ l, f a = g a) → l.map f = l.map g
  | [], _ => rfl
  | a :: l, h => by
    simp only [List.map_cons]
    rw [h a (List.mem_cons_self a l),
      map_congr_mem fun b hb => h b (List.mem_cons_of_mem a hb)]

theorem cancelUpdate_idem (l : List Reservation) (rid : Int) :
    cancelUpdate (cancelUpdate l rid) rid = cancelUpdate l rid := by
  unfold cancelUpdate
  rw [List.map_map]
  apply map_congr_mem
  intro a _
  by_cases h : (a.id == rid) = true
  · simp [Function.comp, h]
  · simp [Function.comp, h]

theorem cancelUpdate_ids (l : List Reservation) (rid : Int) :
    (cancelUpdate l rid).map Reservation.id = l.map Reservation.id := by
  unfold cancelUpdate
  rw [List.map_map]
  apply map_congr_mem
  intro a _
  by_cases h : (a.id == rid) = true
  · simp [Function.comp, h]
  · simp [Function.comp, h]

/-- C7: cancellation fails with NotFound exactly when no reservation has
the id, leaving the state unchanged; otherwise it unconditionally sets the
status of the matching row to `'cancelled'` (whatever it was), keeps every
row (ids preserved, unaffected rows untouched), is idempotent by effect,
and — in a reachable state, for a previously active reservation — an
overlap check for the cancelled reservation's identical time range then
reports no conflict. -/
theorem c7_cancel_semantics (st : AppState) (rid : Int) :
    ((cancelReservation st rid).1 = CancelResult.notFound ↔
      ∀ r ∈ st.reservations, r.id ≠ rid) ∧
    ((cancelReservation st rid).1 = CancelResult.notFound →
      (cancelReservation st rid).2 = st) ∧
    (∀ r ∈ st.reservations, r.id = rid →
      (cancelReservation st rid).1 = CancelResult.cancelled rid ∧
      (cancelReservation st rid).2.reservations.map Reservation.id =
        st.reservations.map Reservation.id ∧
      (∀ r2 ∈ (cancelReservation st rid).2.reservations,
        r2.id = rid → r2.status = "cancelled") ∧
      (∀ r2 ∈ st.reservations, r2.id ≠ rid →
        r2 ∈ (cancelReservation st rid).2.reservations) ∧
      cancelReservation (cancelReservation st rid).2 rid =
        (CancelResult.cancelled rid, (cancelReservation st rid).2)) ∧
    (Reachable st →
      ∀ r ∈ st.reservations, r.id = rid → activeStatus r = true →
        checkForOverlaps (cancelReservation st rid).2.reservations
          r.table_id r.start_time r.duration_minutes = false) := by
  refine ⟨?_, ?_, ?_, ?_⟩
  · rcases hf : st.reservations.find? (fun r => r.id == rid) with _ | r0
    · simp only [cancelReservation, hf]
      simp only [true_iff]
      intro r hr heq
      exact absurd ((List.find?_eq_none.mp hf) r hr) (by simp [heq])
    · simp only [cancelReservation, hf]
      constructor
      · intro h
        exact absurd h (by simp)
      · intro h
        have hr0 : r0 ∈ st.reservations := List.mem_of_find?_eq_some hf
        have hp := List.find?_some hf
        simp only [beq_iff_eq] at hp
        exact absurd hp (h r0 hr0)
  · rcases hf : st.reservations.find? (fun r => r.id == rid) with _ | r0
    · simp [cancelReservation, hf]
    · simp [cancelReservation, hf]
  · intro r hr hid
    rcases hf : st.reservations.find? (fun r => r.id == rid) with _ | r0
    · exact absurd ((List.find?_eq_none.mp hf) r hr) (by simp [hid])
    simp only [cancelReservation, hf]
    refine ⟨by trivial, by exact cancelUpdate_ids st.reservations rid, ?_, ?_, ?_⟩
    · intro r2 h2 h2id
      simp only [cancelUpdate, List.mem_map] at h2
      obtain ⟨a, ha, rfl⟩ := h2
      by_cases haid : (a.id == rid) = true
      · simp [haid]
      · simp only [haid, if_false, Bool.false_eq_true] at h2id ⊢
        exact absurd h2id (by simpa using haid)
    · intro r2 h2 h2ne
      simp only [cancelUpdate, List.mem_map]
      refine ⟨r2, h2, ?_⟩
      simp [beq_eq_false_iff_ne.mpr h2ne]
    · have hmem : ({ r with status := "cancelled" } : Reservation) ∈
          cancelUpdate st.reservations rid := by
        simp only [cancelUpdate, List.mem_map]
        exact ⟨r, hr, by simp [hid]⟩
      rcases hf2 : (cancelUpdate st.reservations rid).find? (fun r => r.id == rid) with _ | r1
      · exact absurd ((List.find?_eq_none.mp hf2) _ hmem) (by simp [hid])
      · simp only [cancelReservation, hf2]
        rw [Prod.mk.injEq]
        refine ⟨rfl, ?_⟩
        have : cancelUpdate (cancelUpdate st.reservations rid) rid =
            cancelUpdate st.reservations rid := cancelUpdate_idem st.reservations rid
        simp [this]
  · intro hreach r hr hid hact
    have inv := reachable_inv st hreach
    rcases hf : st.reservations.find? (fun r => r.id == rid) with _ | r0
    · exact absurd ((List.find?_eq_none.mp hf) r hr) (by simp [hid])
    simp only [cancelReservation, hf]
    rw [checkForOverlaps_eq_false_iff]
    intro r2 h2
    simp only [cancelUpdate, List.mem_map] at h2
    obtain ⟨a, ha, rfl⟩ := h2
    by_cases haid : (a.id == rid) = true
    · rw [Bool.eq_false_iff]
      intro hmatch
      have hactive := overlapRowMatches_active _ _ _ _ hmatch
      simp [haid, activeStatus] at hactive
    · simp only [haid, if_false, Bool.false_eq_true]
      rw [Bool.eq_false_iff]
      intro hmatch
      have hdr : 0 < r.duration_minutes := by
        have := inv.durLB r hr
        omega
      have hda : 0 < a.duration_minutes := by
        have := inv.durLB a ha
        omega
      obtain ⟨htab2, hact2, hint2⟩ :=
        overlapRowMatches_intersect r.table_id r.start_time r.duration_minutes a
          hdr hda hmatch
      have hane : a ≠ r := by
        intro he
        rw [he, hid] at haid
        simp at haid
      have hcompat : ResCompat a r :=
        (inv.noDouble).forall (fun x y hxy => resCompat_symm x y hxy) ha hr hane
      exact hcompat htab2 hact2 hact hint2

/-- C7 witness: cancelling the demonstration reservation succeeds, keeps
the row, is idempotent, and frees its exact time range. -/
theorem c7_witness :
    (cancelReservation demoState 1).1 = CancelResult.cancelled 1 ∧
      (cancelReservation demoState 1).2.reservations.map Reservation.id =
        demoState.reservations.map Reservation.id ∧
      cancelReservation (cancelReservation demoState 1).2 1 =
        (CancelResult.cancelled 1, (cancelReservation demoState 1).2) ∧
      checkForOverlaps (cancelReservation demoState 1).2.reservations
        demoRow.table_id demoRow.start_time demoRow.duration_minutes = false :=
  ⟨((c7_cancel_semantics demoState 1).2.2.1 demoRow (by decide) (by decide)).1,
    ((c7_cancel_semantics demoState 1).2.2.1 demoRow (by decide) (by decide)).2.1,
    ((c7_cancel_semantics demoState 1).2.2.1 demoRow (by decide) (by decide)).2.2.2.2,
    (c7_cancel_semantics demoState 1).2.2.2 demoState_reachable demoRow (by decide)
      (by decide) (by decide)⟩

/-! ## Claim C8 — operating-time well-formedness -/

/-- The claim's notion of a well-formed 24-hour wall-clock time: the
`\d{2}:\d{2}` shape with hours 00-23 and minutes 00-59. -/
def isWellFormedHHMM (s : String) : Bool :=
  match s.data with
  | [a, b, c, d, e] =>
    a.isDigit && b.isDigit && c == ':' && d.isDigit && e.isDigit &&
      ((a.toNat - 48) * 10 + (b.toNat - 48) < 24) &&
      ((d.toNat - 48) * 10 + (e.toNat - 48) < 60)
  | _ => false

/-- C8 counterexample: restaurant creation accepts and persists the
operating times `"99:99"`, which are not well-formed 24-hour `"HH:MM"`
values, so the claimed invariant fails at the creation boundary. -/
theorem c8_counterexample :
    (createRestaurant initialState "X" "99:99" "99:99" demoClock).1 ≠
        CreateRestaurantResult.validationError ∧
      (createRestaurant initialState "X" "99:99" "99:99" demoClock).2.restaurants.map
        Restaurant.opening_time = ["99:99"] ∧
      isWellFormedHHMM "99:99" = false := by
  decide

/-- C8 amended: the creation schema enforces only the textual shape
`^\d{2}:\d{2}$` (two digits, colon, two digits — digit ranges
unconstrained), and that shape holds for both operating times of every
restaurant in every reachable state. -/
theorem c8_time_shape_invariant (s : AppState) (hs : Reachable s) :
    ∀ r ∈ s.restaurants,
      timeShapeOk r.opening_time = true ∧ timeShapeOk r.closing_time = true :=
  (reachable_inv s hs).restTimes

/-- C8 witness: the invariant evaluated on the demonstration restaurant. -/
theorem c8_witness :
    timeShapeOk demoRestaurant.opening_time = true ∧
      timeShapeOk demoRestaurant.closing_time = true :=
  c8_time_shape_invariant demoState demoState_reachable demoRestaurant (by decide)

/-! ## Claim C9 — addTable's restaurant_id resolution -/

/-- C9: `addTable` merges the URL parameter over the body guarded by JS
truthiness: a parameter that `parseInt`s to a nonzero number overrides the
body's `restaurant_id`; one that parses to `0` is falsy, so the body's
value is used; and one that does not parse as a number (`NaN`) fails with
400 before validation, whatever the body contains. -/
theorem c9_addTable_merge (s : AppState) (str : String) (body : AddTableBody)
    (hne : str ≠ "") :
    (parseIntJs str = none →
      ∀ b2 : AddTableBody, addTable s (some str) b2 = (AddTableResult.invalidUrlParam, s)) ∧
    (∀ n : Int, parseIntJs str = some n → n ≠ 0 →
      addTableData (some str) body = .ok { body with restaurant_id := some n }) ∧
    (parseIntJs str = some 0 →
      addTableData (some str) body = .ok body) := by
  refine ⟨?_, ?_, ?_⟩
  · intro hp b2
    unfold addTable addTableData addTableParamId
    simp [hne, hp]
  · intro n hp hn
    unfold addTableData addTableParamId
    simp [hne, hp, hn]
  · intro hp
    unfold addTableData addTableParamId
    simp [hne, hp]

/-- C9 witness: `"7"` overrides the body, `"0"` defers to it, `"abc"`
yields the 400. -/
theorem c9_witness :
    ("7" : String) ≠ "" ∧
      addTableData (some "7") ⟨some 5, some 1, some 4⟩ =
        .ok ⟨some 7, some 1, some 4⟩ ∧
      addTableData (some "0") ⟨some 5, some 1, some 4⟩ =
        .ok ⟨some 5, some 1, some 4⟩ ∧
      addTable initialState (some "abc") ⟨some 5, some 1, some 4⟩ =
        (AddTableResult.invalidUrlParam, initialState) :=
  ⟨by decide,
    (c9_addTable_merge initialState "7" ⟨some 5, some 1, some 4⟩ (by decide)).2.1 7
      (by decide) (by decide),
    (c9_addTable_merge initialState "0" ⟨some 5, some 1, some 4⟩ (by decide)).2.2
      (by decide),
    (c9_addTable_merge initialState "abc" ⟨some 5, some 1, some 4⟩ (by decide)).1
      (by decide) ⟨some 5, some 1, some 4⟩⟩

/-! ## Claim C10 — the date guard checks shape only -/

def isLeapYear (y : Nat) : Bool :=
  y % 4 == 0 && (y % 100 != 0 || y % 400 == 0)

def daysInMonth (y m : Nat) : Nat :=
  if m == 2 then (if isLeapYear y then 29 else 28)
  else if m == 4 || m == 6 || m == 9 || m == 11 then 30
  else 31

/-- Whether a `\d{4}-\d{2}-\d{2}`-shaped string denotes a real proleptic
Gregorian calendar date (month 01-12, day within the month). -/
def isRealDateStr (s : String) : Bool :=
  match s.data with
  | [a, b, c, d, h1, e, f, h2, g, k] =>
    a.isDigit && b.isDigit && c.isDigit && d.isDigit && h1 == '-' &&
      e.isDigit && f.isDigit && h2 == '-' && g.isDigit && k.isDigit &&
      (let m := (e.toNat - 48) * 10 + (f.toNat - 48)
       let dd := (g.toNat - 48) * 10 + (k.toNat - 48)
       let y := (((a.toNat - 48) * 10 + (b.toNat - 48)) * 10 + (c.toNat - 48)) * 10 +
         (d.toNat - 48)
       1 ≤ m && m ≤ 12 && 1 ≤ dd && dd ≤ daysInMonth y m)
  | _ => false

/-- C10: the 400 guard of `getReservationsByDate` tests only the textual
shape `\d{4}-\d{2}-\d{2}`; a string of that shape denoting no real
calendar date passes the guard, and — the stored rows' `DATE(start_time)`
values being real calendar dates — the operation answers 200 with the
(empty) list of matching reservations instead of a validation error. -/
theorem c10_date_guard (s : AppState) (rid : Int) (date : String) (rst : Restaurant)
    (hshape : isDateShape date = true)
    (hnotreal : isRealDateStr date = false)
    (hfr : s.restaurants.find? (fun r => r.id == rid) = some rst)
    (hstored : ∀ r ∈ s.reservations, isRealDateStr (sqliteDateOf r.start_time) = true) :
    getReservationsByDate s rid date = .ok (dayRows s rid date) ∧
      dayRows s rid date = [] := by
  constructor
  · unfold getReservationsByDate
    rw [hshape, hfr]
    simp
  · unfold dayRows
    have hfilter : s.reservations.filter
        (fun r => r.restaurant_id == rid && sqliteDateOf r.start_time == date) = [] := by
      rw [List.filter_eq_nil_iff]
      intro r hr
      simp only [Bool.and_eq_true, beq_iff_eq, not_and]
      intro _ hdate
      have h1 := hstored r hr
      rw [hdate, hnotreal] at h1
      exact Bool.false_ne_true h1
    rw [hfilter]
    rfl

/-- C10 witness: `"2026-13-40"` (month 13, day 40) against the
demonstration state, whose stored reservation starts on 1970-01-01. -/
theorem c10_witness :
    getReservationsByDate demoState 1 "2026-13-40" =
        ResByDateResult.ok (dayRows demoState 1 "2026-13-40") ∧
      dayRows demoState 1 "2026-13-40" = [] :=
  c10_date_guard demoState 1 "2026-13-40" demoRestaurant (by decide) (by decide)
    (by decide) (by decide)

/-! ## Claim C5 — availability search -/

theorem slotProbe_eq_some (resv : List Reservation) (tables : List RTable)
    (d : Int) (h m : Nat) (e : Slot) (he : slotProbe resv tables d h m = some e) :
    e.time = slotInstant d h m ∧
      ∃ t, tables.find?
          (fun t => ! checkForOverlaps resv t.id (slotInstant d h m) 90) = some t ∧
        e.table_id = t.id ∧ e.table_number = t.table_number := by
  unfold slotProbe at he
  rcases hf : tables.find?
      (fun t => ! checkForOverlaps resv t.id (slotInstant d h m) 90) with _ | t
  · rw [hf] at he
    cases he
  · rw [hf] at he
    injection he with he
    subst he
    exact ⟨rfl, t, hf, rfl, rfl⟩

theorem mem_eligibleTables (st : AppState) (rid party : Int) (t : RTable) :
    t ∈ eligibleTables st rid party ↔
      t ∈ st.tables ∧ t.restaurant_id = rid ∧ party ≤ t.capacity := by
  unfold eligibleTables
  rw [mem_sortLe, List.mem_filter]
  simp [and_assoc, ge_iff_le]

theorem eligible_pairwise (st : AppState) (rid party : Int) :
    (eligibleTables st rid party).Pairwise
      (fun a b => (decide (a.capacity ≤ b.capacity) : Bool) = true) := by
  unfold eligibleTables
  apply pairwise_sortLe
  · intro a b hab
    simp only [decide_eq_false_iff_not, not_le] at hab
    simp only [decide_eq_true_eq]
    omega
  · intro a b c h1 h2
    simp only [decide_eq_true_eq] at h1 h2 ⊢
    omega

theorem mem_hourRange (oh ch h : Nat) :
    h ∈ hourRange (some oh) (some ch) ↔ oh ≤ h ∧ h < ch := by
  unfold hourRange
  simp only [List.mem_map, List.mem_range]
  constructor
  · rintro ⟨i, hi, rfl⟩
    omega
  · rintro ⟨h1, h2⟩
    exact ⟨h - oh, by omega, by omega⟩

theorem hourRange_pairwise (oh ch : Option Nat) :
    (hourRange oh ch).Pairwise (· < ·) := by
  cases oh with
  | none => exact List.Pairwise.nil
  | some a =>
    cases ch with
    | none => exact List.Pairwise.nil
    | some b =>
      unfold hourRange
      refine List.Pairwise.map _ ?_ (List.pairwise_lt_range (b - a))
      intro i j hij
      omega

theorem mem_slotLoop (resv : List Reservation) (tables : List RTable) (d : Int)
    (openH closeH : Option Nat) (e : Slot) :
    e ∈ slotLoop resv tables d openH closeH ↔
      ∃ h ∈ hourRange openH closeH, ∃ m ∈ ([0, 15, 30, 45] : List Nat),
        slotProbe resv tables d h m = some e := by
  unfold slotLoop
  simp [List.mem_flatMap, List.mem_filterMap]

theorem quarter_le_45 (m : Nat) (hm : m ∈ ([0, 15, 30, 45] : List Nat)) : m ≤ 45 := by
  simp only [List.mem_cons, List.not_mem_nil, or_false] at hm
  rcases hm with rfl | rfl | rfl | rfl <;> omega

theorem flat_times_pairwise (resv : List Reservation) (tables : List RTable) (d : Int) :
    ∀ (hl : List Nat), hl.Pairwise (· < ·) →
      ((hl.flatMap (fun h => ([0, 15, 30, 45] : List Nat).filterMap
        (slotProbe resv tables d h))).map Slot.time).Pairwise (· ≠ ·)
  | [], _ => by simp
  | h :: t, hp => by
    obtain ⟨hh, ht⟩ := List.pairwise_cons.mp hp
    rw [List.flatMap_cons, List.map_append]
    refine List.pairwise_append.mpr
      ⟨?_, flat_times_pairwise resv tables d t ht, ?_⟩
    · refine List.Pairwise.map _ (fun e1 e2 hne => hne) ?_
      have hq : ([0, 15, 30, 45] : List Nat).Pairwise (· ≠ ·) := by decide
      refine pairwise_filterMap_of (slotProbe resv tables d h) hq ?_
      intro m1 m2 hne x y hx hy
      have hx1 := (slotProbe_eq_some resv tables d h m1 x hx).1
      have hy1 := (slotProbe_eq_some resv tables d h m2 y hy).1
      rw [hx1, hy1]
      unfold slotInstant
      intro heq
      omega
    · intro x hx y hy
      obtain ⟨e1, he1, rfl⟩ := List.mem_map.mp hx
      obtain ⟨e2, he2, rfl⟩ := List.mem_map.mp hy
      obtain ⟨m1, hm1, hp1⟩ := List.mem_filterMap.mp he1
      obtain ⟨h2, hh2, he2b⟩ := List.mem_flatMap.mp he2
      obtain ⟨m2, hm2, hp2⟩ := List.mem_filterMap.mp he2b
      have h1t := (slotProbe_eq_some resv tables d h m1 e1 hp1).1
      have h2t := (slotProbe_eq_some resv tables d h2 m2 e2 hp2).1
      have hlt : h < h2 := hh h2 hh2
      have hm1b : m1 ≤ 45 := quarter_le_45 m1 hm1
      rw [h1t, h2t]
      unfold slotInstant
      intro heq
      omega

/-- C5: availability search for an existing restaurant considers only the
restaurant's tables with capacity at least the party size, in ascending
capacity order; if no table qualifies the result is empty; otherwise every
emitted entry sits on a quarter-hour boundary (minute 0, 15, 30 or 45) of
an hour in `[opening_hour, closing_hour)` (a nonzero closing-minute
component adds nothing: only the hour components of the time strings
matter), records a qualifying table that is free at that slot under the
fixed 90-minute probe of the Overlap Checker and has minimal capacity
among the free qualifying tables, carrying the slot's time, `table_id` and
`table_number`; and at most one entry is emitted per slot (all emitted
times are distinct). -/
theorem c5_availability (s : AppState) (rid d party : Int) (rst : Restaurant)
    (oh ch : Nat)
    (hfr : s.restaurants.find? (fun r => r.id == rid) = some rst)
    (hoh : jsNumber (firstComp rst.opening_time) = some oh)
    (hch : jsNumber (firstComp rst.closing_time) = some ch) :
    ((∀ t ∈ s.tables, t.restaurant_id = rid → t.capacity < party) →
      getAvailableSlots s rid d party = .ok []) ∧
    (∀ slots, getAvailableSlots s rid d party = .ok slots →
      (∀ e ∈ slots, ∃ hh mm, oh ≤ hh ∧ hh < ch ∧
          (mm = 0 ∨ mm = 15 ∨ mm = 30 ∨ mm = 45) ∧
          e.time = slotInstant d hh mm ∧
          ∃ t ∈ s.tables, t.restaurant_id = rid ∧ party ≤ t.capacity ∧
            e.table_id = t.id ∧ e.table_number = t.table_number ∧
            checkForOverlaps s.reservations t.id e.time 90 = false ∧
            ∀ t2 ∈ s.tables, t2.restaurant_id = rid → party ≤ t2.capacity →
              checkForOverlaps s.reservations t2.id e.time 90 = false →
              t.capacity ≤ t2.capacity) ∧
        (slots.map Slot.time).Nodup) ∧
    (∀ (s2 : AppState) (rst2 : Restaurant),
      s2.restaurants.find? (fun r => r.id == rid) = some rst2 →
      s2.tables = s.tables → s2.reservations = s.reservations →
      firstComp rst2.opening_time = firstComp rst.opening_time →
      firstComp rst2.closing_time = firstComp rst.closing_time →
      getAvailableSlots s2 rid d party = getAvailableSlots s rid d party) := by
  refine ⟨?_, ?_, ?_⟩
  · intro hno
    have hfil : s.tables.filter
        (fun t => t.restaurant_id == rid && t.capacity ≥ party) = [] := by
      rw [List.filter_eq_nil_iff]
      intro t ht
      simp only [Bool.and_eq_true, beq_iff_eq, decide_eq_true_eq, ge_iff_le, not_and]
      intro hrid
      have := hno t ht hrid
      omega
    have he : eligibleTables s rid party = [] := by
      unfold eligibleTables
      rw [hfil]
      rfl
    simp [getAvailableSlots, hfr, he]
  · intro slots hres
    simp only [getAvailableSlots, hfr] at hres
    by_cases hemp : (eligibleTables s rid party).isEmpty
    · rw [if_pos hemp] at hres
      injection hres with hres
      subst hres
      exact ⟨fun e he => absurd he (List.not_mem_nil e), by simp⟩
    · rw [if_neg hemp] at hres
      injection hres with hres
      subst hres
      constructor
      · intro e he
        rw [hoh, hch] at he
        obtain ⟨hh, hhr, mm, hmm, hpe⟩ :=
          (mem_slotLoop s.reservations (eligibleTables s rid party) d
            (some oh) (some ch) e).mp he
        obtain ⟨hhl, hhu⟩ := (mem_hourRange oh ch hh).mp hhr
        obtain ⟨htime, t, hft, hid, hnum⟩ :=
          slotProbe_eq_some s.reservations (eligibleTables s rid party) d hh mm e hpe
        have htmem : t ∈ eligibleTables s rid party := List.mem_of_find?_eq_some hft
        have hpred := List.find?_some hft
        simp only [Bool.not_eq_true'] at hpred
        obtain ⟨hts, htrid, htcap⟩ := (mem_eligibleTables s rid party t).mp htmem
        refine ⟨hh, mm, hhl, hhu, by simpa using hmm, htime,
          t, hts, htrid, htcap, hid, hnum, ?_, ?_⟩
        · rw [htime]
          exact hpred
        · intro t2 ht2 ht2rid ht2cap ht2free
          rw [htime] at ht2free
          have ht2el : t2 ∈ eligibleTables s rid party :=
            (mem_eligibleTables s rid party t2).mpr ⟨ht2, ht2rid, ht2cap⟩
          have hmin := find?_minimal (eligible_pairwise s rid party) hft t2 ht2el
            (by simp only [Bool.not_eq_true']; exact ht2free)
          rcases hmin with hle | heq2
          · simpa using hle
          · rw [heq2]
      · rw [hoh, hch]
        unfold slotLoop
        exact flat_times_pairwise s.reservations (eligibleTables s rid party) d
          (hourRange (some oh) (some ch)) (hourRange_pairwise (some oh) (some ch))
  · intro s2 rst2 hfr2 htab hresv hopen hclose
    have he : eligibleTables s2 rid party = eligibleTables s rid party := by
      unfold eligibleTables
      rw [htab]
    simp only [getAvailableSlots, hfr, hfr2]
    rw [he, hresv, hopen, hclose]

/-- C5 witness: a party of ten against the demonstration restaurant's
single four-seat table yields the empty slot list. -/
theorem c5_witness :
    getAvailableSlots demoState 1 0 10 = AvailResult.ok [] :=
  (c5_availability demoState 1 0 10 demoRestaurant 10 22
      (by decide) (by decide) (by decide)).1 (by decide)
